import Mathlib

/-!
Verification of the negotiation economics and counter-offer policy engine.

The model embeds, over exact rational arithmetic:
  * the expected-sales and expected-profit computation under uniform demand,
  * the closed-form Nash bargaining benchmark,
  * the bisection root finder,
  * the two inverse solvers (target retailer profit for a fixed price or
    a fixed quantity),
  * the scenario-classification procedure that turns a (possibly partial)
    offer into a mandated decision.

JavaScript `Math.round` is embedded as `jsRound x = ⌊x + 1/2⌋` (ties toward
positive infinity), and numeric literals such as `1e-6` are the exact
rationals they denote.
-/

/-- Negotiation parameters: production cost `c`, retail price `p`, and the
support `[demand_min, demand_max]` of the uniform demand distribution. -/
structure NegotiationParams where
  c : ℚ
  p : ℚ
  demand_min : ℚ
  demand_max : ℚ
deriving DecidableEq, Repr

/-- `E[min(q, D)]` for `D ~ Uniform[demand_min, demand_max]`, translated from
`expectedMinQuantityDemand` in `negotiationService.ts`. -/
def expectedMinQuantityDemand (q : ℚ) (params : NegotiationParams) : ℚ :=
  let demand_range := params.demand_max - params.demand_min
  if q ≤ params.demand_min then q
  else if params.demand_max ≤ q then (params.demand_min + params.demand_max) / 2
  else
    let integral_part1 := (q * q - params.demand_min * params.demand_min) / 2
    let integral_part2 := q * (params.demand_max - q)
    (integral_part1 + integral_part2) / demand_range

/-- Expected sales as the specification describes them, written from the
spec's own piecewise wording for comparison against the implementation:
`E = q` when `q ≤ demandMin`, `E = (demandMin + demandMax)/2` when
`q ≥ demandMax`, otherwise the exact integral of `min(q, d)` over the
uniform density. -/
def expectedSalesSpec (q : ℚ) (params : NegotiationParams) : ℚ :=
  if q ≤ params.demand_min then q
  else if params.demand_max ≤ q then (params.demand_min + params.demand_max) / 2
  else ((q * q - params.demand_min * params.demand_min) / 2 +
    q * (params.demand_max - q)) / (params.demand_max - params.demand_min)

/-- Result record of `calculateProfits`. -/
structure ProfitCalcs where
  supplier_profit : ℚ
  retailer_profit : ℚ
  total_profit : ℚ
deriving DecidableEq, Repr

/-- Expected profits for supplier and retailer, translated from
`calculateProfits` in `negotiationService.ts`. -/
def calculateProfits (w q : ℚ) (params : NegotiationParams) : ProfitCalcs :=
  let expected_sales := expectedMinQuantityDemand q params
  let supplier_profit := w * expected_sales - params.c * q
  let retailer_profit := (params.p - w) * expected_sales
  { supplier_profit := supplier_profit
    retailer_profit := retailer_profit
    total_profit := supplier_profit + retailer_profit }

/-- JavaScript `Math.round`: round half toward positive infinity. -/
def jsRound (x : ℚ) : ℤ := ⌊x + 1 / 2⌋

/-- Result record of `nashBargainingSolution`. -/
structure NashSolution where
  order_quantity : ℚ
  wholesale_price : ℚ
  retailer_profit : ℚ
  supplier_profit : ℚ
  total_profit : ℚ
deriving DecidableEq, Repr

/-- The closed-form Nash bargaining benchmark, translated from
`nashBargainingSolution` in `negotiationService.ts`. -/
def nashBargainingSolution (params : NegotiationParams) : NashSolution :=
  let demand_range := params.demand_max - params.demand_min
  let q_star_float := demand_range * (params.p - params.c) / params.p
  let q_star : ℚ := (jsRound q_star_float : ℤ)
  let w_star := params.p * (params.p + 3 * params.c) / (2 * (params.p + params.c))
  let profits := calculateProfits w_star q_star params
  { order_quantity := q_star
    wholesale_price := w_star
    retailer_profit := profits.retailer_profit
    supplier_profit := profits.supplier_profit
    total_profit := profits.total_profit }

/-- The iteration of the bisection method: state `(a, b, f_a)` plus the most
recently computed midpoint `last` (initially `a` in the source); the first
argument is the remaining iteration count. -/
def bisectionLoop (f : ℚ → ℚ) (tol : ℚ) : ℕ → ℚ → ℚ → ℚ → ℚ → ℚ
  | 0, _, _, _, last => last
  | n + 1, a, b, f_a, _ =>
    let c := (a + b) / 2
    let f_c := f c
    if |f_c| < tol ∨ (b - a) / 2 < tol then c
    else if f_a * f_c < 0 then bisectionLoop f tol n a c f_a c
    else bisectionLoop f tol n c b f_c c

/-- Bisection root finder, translated from `bisection` in
`negotiationService.ts`; returns `none` when the initial sign condition
`f a * f b < 0` fails. -/
def bisection (f : ℚ → ℚ) (a b tol : ℚ) (max_iter : ℕ) : Option ℚ :=
  if 0 ≤ f a * f b then none
  else some (bisectionLoop f tol max_iter a b (f a) a)

/-- Given wholesale price `w`, find the quantity that yields the target
retailer profit, translated from `findQForTargetRetailerProfit` in
`negotiationService.ts` (default tolerance `1e-5`, `100` iterations, search
interval `[1e-6, 2·demand_max]`, result rounded by `Math.round`). -/
def findQForTargetRetailerProfit (w targetProfit : ℚ)
    (params : NegotiationParams) : Option ℤ :=
  if params.p ≤ w then
    if targetProfit ≤ 0 then some 0 else none
  else
    let profitDifference : ℚ → ℚ := fun q =>
      (calculateProfits w q params).retailer_profit - targetProfit
    match bisection profitDifference (1 / 1000000) (params.demand_max * 2)
        (1 / 100000) 100 with
    | none => none
    | some q_float => some (jsRound q_float)

/-- Given quantity `q`, find the wholesale price that yields the target
retailer profit, translated from `findWForTargetRetailerProfit` in
`negotiationService.ts`. -/
def findWForTargetRetailerProfit (q targetProfit : ℚ)
    (params : NegotiationParams) : Option ℚ :=
  if 0 < targetProfit ∧ q ≤ 0 then none
  else if targetProfit ≤ 0 ∧ q ≤ 0 then some params.p
  else
    let expected_sales := expectedMinQuantityDemand q params
    if expected_sales ≤ 0 then none
    else
      let w := params.p - targetProfit / expected_sales
      if w < params.c then none else some w

/-- A full offer: wholesale price and quantity. -/
structure Offer where
  w : ℚ
  q : ℚ
deriving DecidableEq, Repr

/-- A possibly incomplete offer, as produced by the offer-reading
collaborator: each field may be absent. -/
structure PartialOffer where
  w : Option ℚ
  q : Option ℚ
deriving DecidableEq, Repr

/-- The decision emitted by the scenario-classification procedure.
`ConditionalOffer` carries the max-price anchor price, the quantity
`demand_max` it is conditioned on, the min-quantity anchor price `c + 0.01`
and the quantity computed for it, as in scenario 4 of `getAiResponse`. -/
inductive Decision where
  | Accept : Offer → Decision
  | CounterPrice : ℚ → ℚ → Decision
  | CounterQuantity : ℚ → ℤ → Decision
  | RejectAndReinitiate : Decision
  | ConditionalOffer : Option ℚ → ℚ → ℚ → Option ℤ → Decision
deriving DecidableEq, Repr

/-- Validity test on an optional offer field: present and strictly positive
(`w !== undefined && w > 0` in `getAiResponse`). -/
def isValidField (x : Option ℚ) : Bool :=
  match x with
  | some v => decide (0 < v)
  | none => false

/-- The scenario-classification procedure, translated from the decision
branches of `getAiResponse`: full offer (accept when the retailer profit
meets the Nash target, else counter on price, else reject), price-only offer
(counter on quantity or reject), quantity-only offer (counter on price or
reject), and the no-offer scenario with its two conditional anchors. -/
def classify (params : NegotiationParams) (nash : NashSolution)
    (po : PartialOffer) : Decision :=
  let targetRetailerProfit := nash.retailer_profit
  if isValidField po.w then
    if isValidField po.q then
      let w := po.w.getD 0
      let q := po.q.getD 0
      let profits := calculateProfits w q params
      if nash.retailer_profit ≤ profits.retailer_profit then
        Decision.Accept { w := w, q := q }
      else
        match findWForTargetRetailerProfit q targetRetailerProfit params with
        | some newW => Decision.CounterPrice q newW
        | none => Decision.RejectAndReinitiate
    else
      let w := po.w.getD 0
      match findQForTargetRetailerProfit w targetRetailerProfit params with
      | some newQ => Decision.CounterQuantity w newQ
      | none => Decision.RejectAndReinitiate
  else if isValidField po.q then
    let q := po.q.getD 0
    match findWForTargetRetailerProfit q targetRetailerProfit params with
    | some newW => Decision.CounterPrice q newW
    | none => Decision.RejectAndReinitiate
  else
    let q_for_max_price := params.demand_max
    let w_for_max_price :=
      findWForTargetRetailerProfit q_for_max_price targetRetailerProfit params
    let w_for_min_q := params.c + 1 / 100
    let q_for_min_w :=
      findQForTargetRetailerProfit w_for_min_q targetRetailerProfit params
    Decision.ConditionalOffer w_for_max_price q_for_max_price w_for_min_q
      q_for_min_w

/-- The numeric bounds a decision can be expected to satisfy: positive price
and quantity in `Accept`, positive quantity and a price at least `c` in
`CounterPrice`, positive price and nonnegative quantity in
`CounterQuantity`. -/
def decisionBounds (params : NegotiationParams) : Decision → Prop
  | Decision.Accept o => 0 < o.w ∧ 0 < o.q
  | Decision.CounterPrice q newW => 0 < q ∧ params.c ≤ newW
  | Decision.CounterQuantity w newQ => 0 < w ∧ 0 ≤ newQ
  | Decision.RejectAndReinitiate => True
  | Decision.ConditionalOffer _ _ _ _ => True

attribute [local semireducible] Rat.add Rat.mul Rat.inv Rat.sub

/-- A valid optional field holds a positive value. -/
lemma isValidField_pos {x : Option ℚ} (h : isValidField x = true) :
    0 < x.getD 0 := by
  cases x with
  | none => simp [isValidField] at h
  | some v => simpa [isValidField] using h

/-- Unfolding of the bisection loop at zero remaining iterations. -/
lemma bisectionLoop_zero (f : ℚ → ℚ) (tol a b f_a last : ℚ) :
    bisectionLoop f tol 0 a b f_a last = last := rfl

/-- Unfolding of the bisection loop for one iteration step. -/
lemma bisectionLoop_succ (f : ℚ → ℚ) (tol : ℚ) (n : ℕ) (a b f_a last : ℚ) :
    bisectionLoop f tol (n + 1) a b f_a last =
      if |f ((a + b) / 2)| < tol ∨ (b - a) / 2 < tol then (a + b) / 2
      else if f_a * f ((a + b) / 2) < 0 then
        bisectionLoop f tol n a ((a + b) / 2) f_a ((a + b) / 2)
      else
        bisectionLoop f tol n ((a + b) / 2) b (f ((a + b) / 2)) ((a + b) / 2) :=
  rfl

/-- The bisection loop never leaves the initial bracket. -/
lemma bisectionLoop_mem (f : ℚ → ℚ) (tol : ℚ) :
    ∀ (n : ℕ) (a b f_a last : ℚ), a ≤ b → a ≤ last → last ≤ b →
      a ≤ bisectionLoop f tol n a b f_a last ∧
        bisectionLoop f tol n a b f_a last ≤ b := by
  intro n
  induction n with
  | zero =>
    intro a b f_a last hab h1 h2
    rw [bisectionLoop_zero]
    exact ⟨h1, h2⟩
  | succ m ih =>
    intro a b f_a last hab h1 h2
    rw [bisectionLoop_succ]
    split_ifs with hstop hsign
    · constructor <;> linarith
    · have h := ih a ((a + b) / 2) f_a ((a + b) / 2)
        (by linarith) (by linarith) le_rfl
      exact ⟨h.1, by linarith [h.2]⟩
    · have h := ih ((a + b) / 2) b (f ((a + b) / 2)) ((a + b) / 2)
        (by linarith) le_rfl (by linarith)
      exact ⟨by linarith [h.1], h.2⟩

/-- Whatever the bisection loop returns is the midpoint of some sub-bracket
of the initial bracket. -/
lemma bisectionLoop_midpoint (f : ℚ → ℚ) (tol : ℚ) :
    ∀ (m : ℕ) (a b f_a last : ℚ), a ≤ b →
      ∃ a' b', a ≤ a' ∧ a' ≤ b' ∧ b' ≤ b ∧
        bisectionLoop f tol (m + 1) a b f_a last = (a' + b') / 2 := by
  intro m
  induction m with
  | zero =>
    intro a b f_a last hab
    refine ⟨a, b, le_rfl, hab, le_rfl, ?_⟩
    rw [bisectionLoop_succ]
    split_ifs <;> simp [bisectionLoop_zero]
  | succ m ih =>
    intro a b f_a last hab
    rw [bisectionLoop_succ]
    split_ifs with hstop hsign
    · exact ⟨a, b, le_rfl, hab, le_rfl, rfl⟩
    · obtain ⟨a', b', h1, h2, h3, h4⟩ :=
        ih a ((a + b) / 2) f_a ((a + b) / 2) (by linarith)
      exact ⟨a', b', h1, h2, by linarith, h4⟩
    · obtain ⟨a', b', h1, h2, h3, h4⟩ :=
        ih ((a + b) / 2) b (f ((a + b) / 2)) ((a + b) / 2) (by linarith)
      exact ⟨a', b', by linarith, h2, h3, h4⟩

/-- The bisection driver returns `none` exactly when the initial sign
condition fails. -/
lemma bisection_eq_none_iff (f : ℚ → ℚ) (a b tol : ℚ) (n : ℕ) :
    bisection f a b tol n = none ↔ 0 ≤ f a * f b := by
  unfold bisection
  split_ifs with h <;> simp [h]

/-- A successful bisection result lies inside the search bracket. -/
lemma bisection_some_mem {f : ℚ → ℚ} {a b tol : ℚ} {n : ℕ} {r : ℚ}
    (h : bisection f a b tol n = some r) (hab : a ≤ b) : a ≤ r ∧ r ≤ b := by
  unfold bisection at h
  split_ifs at h with hsign
  obtain rfl : bisectionLoop f tol n a b (f a) a = r := Option.some.inj h
  exact bisectionLoop_mem f tol n a b (f a) a hab le_rfl hab

/-- With positive endpoints, a positive tolerance and at least one
iteration, a successful bisection result is positive (even when the bracket
is reversed, the first midpoint is returned at once because the bracket
width test is vacuously met). -/
lemma bisection_some_pos {f : ℚ → ℚ} {a b tol : ℚ} {n : ℕ} {r : ℚ}
    (ha : 0 < a) (hb : 0 < b) (htol : 0 < tol) (hn : 1 ≤ n)
    (h : bisection f a b tol n = some r) : 0 < r := by
  rcases le_or_lt a b with hab | hab
  · exact lt_of_lt_of_le ha (bisection_some_mem h hab).1
  · obtain ⟨m, rfl⟩ : ∃ m, n = m + 1 := ⟨n - 1, by omega⟩
    unfold bisection at h
    split_ifs at h with hsign
    have hcond : |f ((a + b) / 2)| < tol ∨ (b - a) / 2 < tol :=
      Or.inr (by linarith)
    rw [bisectionLoop_succ, if_pos hcond] at h
    obtain rfl : (a + b) / 2 = r := Option.some.inj h
    linarith

/-- A price returned by `findWForTargetRetailerProfit` for a positive
quantity is at least the production cost. -/
lemma findW_some_ge_c {q T : ℚ} {params : NegotiationParams} {w' : ℚ}
    (hq : 0 < q) (h : findWForTargetRetailerProfit q T params = some w') :
    params.c ≤ w' := by
  simp only [findWForTargetRetailerProfit] at h
  split_ifs at h with h1 h2 h3 h4
  · exact absurd h2.2 (not_le.2 hq)
  · obtain rfl :
      params.p - T / expectedMinQuantityDemand q params = w' :=
      Option.some.inj h
    exact not_lt.1 h4

/-- A quantity returned by `findQForTargetRetailerProfit` is nonnegative
whenever `demand_max` is positive. -/
lemma findQ_some_nonneg {w T : ℚ} {params : NegotiationParams} {n : ℤ}
    (hdmax : 0 < params.demand_max)
    (h : findQForTargetRetailerProfit w T params = some n) : 0 ≤ n := by
  simp only [findQForTargetRetailerProfit] at h
  split_ifs at h with h1 h2
  · obtain rfl : (0 : ℤ) = n := Option.some.inj h
    exact le_rfl
  · cases hb : bisection
        (fun q => (calculateProfits w q params).retailer_profit - T)
        (1 / 1000000) (params.demand_max * 2) (1 / 100000) 100 with
    | none => rw [hb] at h; exact Option.noConfusion h
    | some r =>
      rw [hb] at h
      obtain rfl : jsRound r = n := Option.some.inj h
      have hr : 0 < r :=
        bisection_some_pos (by norm_num) (by linarith) (by norm_num)
          (by norm_num) hb
      have : ((0 : ℤ) : ℚ) ≤ r + 1 / 2 := by push_cast; linarith
      exact Int.le_floor.2 this

/-- In the degenerate case `T ≤ 0`, `q ≤ 0`, the price solver returns the
retail price. -/
lemma findW_degenerate_p {q T : ℚ} (params : NegotiationParams)
    (ht : T ≤ 0) (hq : q ≤ 0) :
    findWForTargetRetailerProfit q T params = some params.p := by
  simp only [findWForTargetRetailerProfit]
  rw [if_neg (fun h => absurd h.1 (not_lt.2 ht)), if_pos ⟨ht, hq⟩]

/-- A positive target with a non-positive quantity is unreachable. -/
lemma findW_degenerate_none {q T : ℚ} (params : NegotiationParams)
    (ht : 0 < T) (hq : q ≤ 0) :
    findWForTargetRetailerProfit q T params = none := by
  simp only [findWForTargetRetailerProfit]
  rw [if_pos ⟨ht, hq⟩]

/-- With positive quantity but non-positive expected sales the price solver
fails. -/
lemma findW_E_nonpos {q T : ℚ} (params : NegotiationParams) (hq : 0 < q)
    (hE : expectedMinQuantityDemand q params ≤ 0) :
    findWForTargetRetailerProfit q T params = none := by
  simp only [findWForTargetRetailerProfit]
  split_ifs with h1 h2 h3 h4 <;>
    first
      | rfl
      | exact absurd hq (not_lt.2 h2.2)
      | exact absurd hE h3

/-- With positive quantity, positive expected sales and a closed-form price
respecting the cost floor, the price solver returns that price. -/
lemma findW_feasible {q T : ℚ} (params : NegotiationParams) (hq : 0 < q)
    (hE : 0 < expectedMinQuantityDemand q params)
    (hw : params.c ≤ params.p - T / expectedMinQuantityDemand q params) :
    findWForTargetRetailerProfit q T params =
      some (params.p - T / expectedMinQuantityDemand q params) := by
  simp only [findWForTargetRetailerProfit]
  split_ifs with h1 h2 h3 h4 <;>
    first
      | rfl
      | exact absurd hq (not_lt.2 h1.2)
      | exact absurd hq (not_lt.2 h2.2)
      | exact absurd h3 (not_le.2 hE)
      | exact absurd h4 (not_lt.2 hw)

/-- When the closed-form price falls below the cost floor, the price solver
fails. -/
lemma findW_below_cost_none {q T : ℚ} (params : NegotiationParams)
    (hq : 0 < q) (hE : 0 < expectedMinQuantityDemand q params)
    (hw : params.p - T / expectedMinQuantityDemand q params < params.c) :
    findWForTargetRetailerProfit q T params = none := by
  simp only [findWForTargetRetailerProfit]
  split_ifs with h1 h2 h3 h4 <;>
    first
      | rfl
      | exact absurd hq (not_lt.2 h2.2)
      | exact absurd hw h4

/-- At or above the retail price, a non-positive target yields quantity 0. -/
lemma findQ_high_w_some_zero {w T : ℚ} (params : NegotiationParams)
    (hw : params.p ≤ w) (ht : T ≤ 0) :
    findQForTargetRetailerProfit w T params = some 0 := by
  simp only [findQForTargetRetailerProfit]
  rw [if_pos hw, if_pos ht]

/-- At or above the retail price, a positive target is unreachable. -/
lemma findQ_high_w_none {w T : ℚ} (params : NegotiationParams)
    (hw : params.p ≤ w) (ht : 0 < T) :
    findQForTargetRetailerProfit w T params = none := by
  simp only [findQForTargetRetailerProfit]
  rw [if_pos hw, if_neg (not_le.2 ht)]

/-- Below the retail price, the quantity solver is the rounded result of
bisecting the profit difference over `[1e-6, 2·demand_max]`. -/
lemma findQ_low_w {w T : ℚ} (params : NegotiationParams) (hw : w < params.p) :
    findQForTargetRetailerProfit w T params =
      Option.map jsRound (bisection
        (fun q => (calculateProfits w q params).retailer_profit - T)
        (1 / 1000000) (params.demand_max * 2) (1 / 100000) 100) := by
  simp only [findQForTargetRetailerProfit]
  rw [if_neg (not_le.2 hw)]
  cases bisection
      (fun q => (calculateProfits w q params).retailer_profit - T)
      (1 / 1000000) (params.demand_max * 2) (1 / 100000) 100 with
  | none => rfl
  | some r => rfl

/-- Under the spec's demand-support invariant, positive expected sales force
a positive quantity. -/
lemma expectedMin_pos_imp_q_pos {q : ℚ} {params : NegotiationParams}
    (h0 : 0 ≤ params.demand_min)
    (hE : 0 < expectedMinQuantityDemand q params) : 0 < q := by
  by_contra hq
  push_neg at hq
  have h : expectedMinQuantityDemand q params = q := by
    simp [expectedMinQuantityDemand, le_trans hq h0]
  rw [h] at hE
  exact absurd hE (not_lt.2 hq)

/-- Claim C2: for every parameter set with `demand_min < demand_max` and all
rational `w`, `q`, `calculateProfits` returns `supplier_profit = w·E − c·q`
and `retailer_profit = (p − w)·E` with `E` the piecewise expected sales the
specification describes; consequently expected sales are independent of the
quantity at or above `demand_max`, and at or below `demand_min` the retailer
profit is `(p − w)·q`. -/
theorem calculateProfits_piecewise_expected_sales
    (params : NegotiationParams) (hd : params.demand_min < params.demand_max)
    (w q : ℚ) :
    (calculateProfits w q params).supplier_profit =
      w * expectedSalesSpec q params - params.c * q ∧
    (calculateProfits w q params).retailer_profit =
      (params.p - w) * expectedSalesSpec q params ∧
    (∀ q1 q2, params.demand_max ≤ q1 → params.demand_max ≤ q2 →
      expectedMinQuantityDemand q1 params =
        expectedMinQuantityDemand q2 params) ∧
    (q ≤ params.demand_min →
      (calculateProfits w q params).retailer_profit = (params.p - w) * q) := by
  refine ⟨rfl, rfl, ?_, ?_⟩
  · intro q1 q2 h1 h2
    have hn1 : ¬q1 ≤ params.demand_min := not_le.2 (lt_of_lt_of_le hd h1)
    have hn2 : ¬q2 ≤ params.demand_min := not_le.2 (lt_of_lt_of_le hd h2)
    simp [expectedMinQuantityDemand, hn1, hn2, h1, h2]
  · intro hq
    simp [calculateProfits, expectedMinQuantityDemand, hq]

/-- Witness for C2: the supplier-profit formula evaluated at `w = 2`,
`q = 50` under the example parameters. -/
theorem calculateProfits_piecewise_expected_sales_witness :
    (⟨3, 10, 0, 100⟩ : NegotiationParams).demand_min <
      (⟨3, 10, 0, 100⟩ : NegotiationParams).demand_max ∧
    (calculateProfits 2 50 ⟨3, 10, 0, 100⟩).supplier_profit =
      2 * expectedSalesSpec 50 ⟨3, 10, 0, 100⟩ -
        (⟨3, 10, 0, 100⟩ : NegotiationParams).c * 50 :=
  ⟨by decide,
    (calculateProfits_piecewise_expected_sales ⟨3, 10, 0, 100⟩ (by decide)
      2 50).1⟩

/-- Claim C3: `nashBargainingSolution` returns exactly the rounded
`q* = round((demandMax − demandMin)·(p − c)/p)`, the unrounded
`w* = p·(p + 3c)/(2·(p + c))`, and the profit fields of
`calculateProfits w* q*`; on the example parameters it yields `q* = 70` and
`w* = 190/26`. -/
theorem nashBargainingSolution_closed_form :
    (∀ params : NegotiationParams,
      nashBargainingSolution params =
        { order_quantity := ((jsRound ((params.demand_max - params.demand_min) *
            (params.p - params.c) / params.p) : ℤ) : ℚ)
          wholesale_price := params.p * (params.p + 3 * params.c) /
            (2 * (params.p + params.c))
          retailer_profit := (calculateProfits
            (params.p * (params.p + 3 * params.c) /
              (2 * (params.p + params.c)))
            ((jsRound ((params.demand_max - params.demand_min) *
              (params.p - params.c) / params.p) : ℤ) : ℚ)
            params).retailer_profit
          supplier_profit := (calculateProfits
            (params.p * (params.p + 3 * params.c) /
              (2 * (params.p + params.c)))
            ((jsRound ((params.demand_max - params.demand_min) *
              (params.p - params.c) / params.p) : ℤ) : ℚ)
            params).supplier_profit
          total_profit := (calculateProfits
            (params.p * (params.p + 3 * params.c) /
              (2 * (params.p + params.c)))
            ((jsRound ((params.demand_max - params.demand_min) *
              (params.p - params.c) / params.p) : ℤ) : ℚ)
            params).total_profit }) ∧
    (nashBargainingSolution ⟨3, 10, 0, 100⟩).order_quantity = 70 ∧
    (nashBargainingSolution ⟨3, 10, 0, 100⟩).wholesale_price = 190 / 26 := by
  refine ⟨fun params => rfl, by decide, by decide⟩

/-- Claim C7: a full offer (both fields present and positive) whose retailer
profit meets or exceeds the Nash benchmark — including exact equality — is
accepted unchanged. -/
theorem classify_full_offer_meets_target_accepts
    (params : NegotiationParams) (nash : NashSolution) (w q : ℚ)
    (hw : 0 < w) (hq : 0 < q)
    (hfav : nash.retailer_profit ≤
      (calculateProfits w q params).retailer_profit) :
    classify params nash ⟨some w, some q⟩ = Decision.Accept ⟨w, q⟩ := by
  simp [classify, isValidField, hw, hq, hfav]

/-- Witness for C7 in the exact-equality case: the offer `w = 95/13`,
`q = 70` gives the retailer exactly the Nash profit `245/2` and is
accepted. -/
theorem classify_full_offer_meets_target_accepts_witness :
    (0 : ℚ) < 95 / 13 ∧ (0 : ℚ) < 70 ∧
    (nashBargainingSolution ⟨3, 10, 0, 100⟩).retailer_profit =
      (calculateProfits (95 / 13) 70 ⟨3, 10, 0, 100⟩).retailer_profit ∧
    classify ⟨3, 10, 0, 100⟩ (nashBargainingSolution ⟨3, 10, 0, 100⟩)
      ⟨some (95 / 13), some 70⟩ = Decision.Accept ⟨95 / 13, 70⟩ :=
  ⟨by decide, by decide, by decide,
    classify_full_offer_meets_target_accepts ⟨3, 10, 0, 100⟩
      (nashBargainingSolution ⟨3, 10, 0, 100⟩) (95 / 13) 70
      (by decide) (by decide) (by decide)⟩

/-- Claim C9: a present-but-non-positive field is treated as absent: with
`w ≤ 0 < q` the decision equals that of the quantity-only offer, with
`q ≤ 0 < w` it equals that of the price-only offer, and with both fields
non-positive it equals that of the empty offer. -/
theorem classify_nonpositive_treated_absent
    (params : NegotiationParams) (nash : NashSolution) (w q : ℚ) :
    (w ≤ 0 → 0 < q → classify params nash ⟨some w, some q⟩ =
      classify params nash ⟨none, some q⟩) ∧
    (q ≤ 0 → 0 < w → classify params nash ⟨some w, some q⟩ =
      classify params nash ⟨some w, none⟩) ∧
    (w ≤ 0 → q ≤ 0 → classify params nash ⟨some w, some q⟩ =
      classify params nash ⟨none, none⟩) := by
  refine ⟨?_, ?_, ?_⟩
  · intro hw hq
    simp [classify, isValidField, not_lt.2 hw, hq]
  · intro hq hw
    simp [classify, isValidField, not_lt.2 hq, hw]
  · intro hw hq
    simp [classify, isValidField, not_lt.2 hw, not_lt.2 hq]

/-- Witness for C9: the offer `w = −1`, `q = 5` classifies exactly as the
quantity-only offer `q = 5`. -/
theorem classify_nonpositive_treated_absent_witness :
    (-1 : ℚ) ≤ 0 ∧ (0 : ℚ) < 5 ∧
    classify ⟨3, 10, 0, 100⟩ (nashBargainingSolution ⟨3, 10, 0, 100⟩)
      ⟨some (-1), some 5⟩ =
      classify ⟨3, 10, 0, 100⟩ (nashBargainingSolution ⟨3, 10, 0, 100⟩)
        ⟨none, some 5⟩ :=
  ⟨by decide, by decide,
    (classify_nonpositive_treated_absent ⟨3, 10, 0, 100⟩
      (nashBargainingSolution ⟨3, 10, 0, 100⟩) (-1) 5).1
      (by decide) (by decide)⟩

/-- Claim C10: the total profit is independent of the wholesale price, and
equals `p·E(q) − c·q`: the price only transfers profit between the two
parties. -/
theorem calculateProfits_total_independent_of_w
    (params : NegotiationParams) (q w1 w2 : ℚ) :
    (calculateProfits w1 q params).total_profit =
      (calculateProfits w2 q params).total_profit ∧
    (calculateProfits w1 q params).total_profit =
      params.p * expectedMinQuantityDemand q params - params.c * q := by
  constructor
  · simp only [calculateProfits]
    ring
  · simp only [calculateProfits]
    ring

/-- Claim C4: full case analysis of `findWForTargetRetailerProfit` — the
degenerate `some p` case, the two-sided closed form `w = p − T/E` guarded by
the cost floor, and the exact characterization of when `none` is returned. -/
theorem findWForTargetRetailerProfit_characterization
    (q T : ℚ) (params : NegotiationParams) :
    (T ≤ 0 → q ≤ 0 →
      findWForTargetRetailerProfit q T params = some params.p) ∧
    (0 < T → q ≤ 0 → findWForTargetRetailerProfit q T params = none) ∧
    (0 < q → expectedMinQuantityDemand q params ≤ 0 →
      findWForTargetRetailerProfit q T params = none) ∧
    (0 < q → 0 < expectedMinQuantityDemand q params →
      params.c ≤ params.p - T / expectedMinQuantityDemand q params →
      findWForTargetRetailerProfit q T params =
        some (params.p - T / expectedMinQuantityDemand q params)) ∧
    (0 < q → 0 < expectedMinQuantityDemand q params →
      params.p - T / expectedMinQuantityDemand q params < params.c →
      findWForTargetRetailerProfit q T params = none) ∧
    (findWForTargetRetailerProfit q T params = none ↔
      (0 < T ∧ q ≤ 0) ∨
      (0 < q ∧ expectedMinQuantityDemand q params ≤ 0) ∨
      (0 < q ∧ 0 < expectedMinQuantityDemand q params ∧
        params.p - T / expectedMinQuantityDemand q params < params.c)) := by
  refine ⟨fun ht hq => findW_degenerate_p params ht hq,
    fun ht hq => findW_degenerate_none params ht hq,
    fun hq hE => findW_E_nonpos params hq hE,
    fun hq hE hw => findW_feasible params hq hE hw,
    fun hq hE hw => findW_below_cost_none params hq hE hw, ?_, ?_⟩
  · intro h
    rcases le_or_lt q 0 with hq | hq
    · rcases lt_or_le 0 T with ht | ht
      · exact Or.inl ⟨ht, hq⟩
      · rw [findW_degenerate_p params ht hq] at h
        exact Option.noConfusion h
    · rcases le_or_lt (expectedMinQuantityDemand q params) 0 with hE | hE
      · exact Or.inr (Or.inl ⟨hq, hE⟩)
      · rcases lt_or_le (params.p - T / expectedMinQuantityDemand q params)
            params.c with hw | hw
        · exact Or.inr (Or.inr ⟨hq, hE, hw⟩)
        · rw [findW_feasible params hq hE hw] at h
          exact Option.noConfusion h
  · rintro (⟨ht, hq⟩ | ⟨hq, hE⟩ | ⟨hq, hE, hw⟩)
    · exact findW_degenerate_none params ht hq
    · exact findW_E_nonpos params hq hE
    · exact findW_below_cost_none params hq hE hw

/-- Witness for C4: the degenerate case `T = 0`, `q = 0` returns the retail
price. -/
theorem findWForTargetRetailerProfit_characterization_witness :
    (0 : ℚ) ≤ 0 ∧
    findWForTargetRetailerProfit 0 0 ⟨3, 10, 0, 100⟩ = some 10 :=
  ⟨by decide,
    (findWForTargetRetailerProfit_characterization 0 0 ⟨3, 10, 0, 100⟩).1
      (by decide) (by decide)⟩

/-- Claim C5: `findQForTargetRetailerProfit` returns `some 0` for
`w ≥ p, T ≤ 0` and `none` for `w ≥ p, T > 0`; below the retail price it is
exactly the rounded bisection of the retailer-profit difference over
`[1e-6, 2·demand_max]`, and it returns `none` exactly when that bisection
finds no sign change over the interval. -/
theorem findQForTargetRetailerProfit_characterization
    (w T : ℚ) (params : NegotiationParams) :
    (params.p ≤ w → T ≤ 0 →
      findQForTargetRetailerProfit w T params = some 0) ∧
    (params.p ≤ w → 0 < T →
      findQForTargetRetailerProfit w T params = none) ∧
    (w < params.p → findQForTargetRetailerProfit w T params =
      Option.map jsRound (bisection
        (fun q => (calculateProfits w q params).retailer_profit - T)
        (1 / 1000000) (params.demand_max * 2) (1 / 100000) 100)) ∧
    (w < params.p → (findQForTargetRetailerProfit w T params = none ↔
      0 ≤ ((calculateProfits w (1 / 1000000) params).retailer_profit - T) *
        ((calculateProfits w (params.demand_max * 2) params).retailer_profit -
          T))) := by
  refine ⟨fun hw ht => findQ_high_w_some_zero params hw ht,
    fun hw ht => findQ_high_w_none params hw ht,
    fun hw => findQ_low_w params hw, fun hw => ?_⟩
  rw [findQ_low_w params hw, Option.map_eq_none', bisection_eq_none_iff]

/-- Witness for C5: at `w = 10 ≥ p`, `T = 0` the quantity solver returns
`some 0`. -/
theorem findQForTargetRetailerProfit_characterization_witness :
    (⟨3, 10, 0, 100⟩ : NegotiationParams).p ≤ 10 ∧ (0 : ℚ) ≤ 0 ∧
    findQForTargetRetailerProfit 10 0 ⟨3, 10, 0, 100⟩ = some 0 :=
  ⟨by decide, by decide,
    (findQForTargetRetailerProfit_characterization 10 0 ⟨3, 10, 0, 100⟩).1
      (by decide) (by decide)⟩

/-- Claim C6: bisection returns "no root" exactly when `f(a)·f(b) ≥ 0`;
whenever `f(a)·f(b) < 0` it returns the midpoint of some sub-bracket of
`[a, b]` (never `none`), and when the first midpoint already meets the
stopping test (`|f(mid)| < tol` or bracket width below tolerance) that
midpoint is returned at once. -/
theorem bisection_spec (f : ℚ → ℚ) (a b tol : ℚ) (n : ℕ) :
    (bisection f a b tol n = none ↔ 0 ≤ f a * f b) ∧
    (f a * f b < 0 → a ≤ b →
      ∃ a' b', a ≤ a' ∧ a' ≤ b' ∧ b' ≤ b ∧
        bisection f a b tol n = some ((a' + b') / 2)) ∧
    (f a * f b < 0 → 1 ≤ n →
      (|f ((a + b) / 2)| < tol ∨ (b - a) / 2 < tol) →
      bisection f a b tol n = some ((a + b) / 2)) := by
  refine ⟨bisection_eq_none_iff f a b tol n, ?_, ?_⟩
  · intro hs hab
    cases n with
    | zero =>
      refine ⟨a, a, le_rfl, le_rfl, hab, ?_⟩
      unfold bisection
      rw [if_neg (not_le.2 hs), bisectionLoop_zero,
        show (a + a) / 2 = a by ring]
    | succ m =>
      obtain ⟨a', b', h1, h2, h3, h4⟩ :=
        bisectionLoop_midpoint f tol m a b (f a) a hab
      refine ⟨a', b', h1, h2, h3, ?_⟩
      unfold bisection
      rw [if_neg (not_le.2 hs), h4]
  · intro hs hn hstop
    obtain ⟨m, rfl⟩ : ∃ m, n = m + 1 := ⟨n - 1, by omega⟩
    unfold bisection
    rw [if_neg (not_le.2 hs), bisectionLoop_succ, if_pos hstop]

/-- Witness for C6: for `f x = x − 1` on `[0, 2]` the sign condition holds
and the first midpoint `1` is an exact root, so the returned value is
`(0 + 2)/2`. -/
theorem bisection_spec_witness :
    ((fun x : ℚ => x - 1) 0 * (fun x : ℚ => x - 1) 2 < 0) ∧
    bisection (fun x : ℚ => x - 1) 0 2 (1 / 100000) 100 =
      some ((0 + 2) / 2) :=
  ⟨by decide,
    (bisection_spec (fun x : ℚ => x - 1) 0 2 (1 / 100000) 100).2.2
      (by decide) (by decide) (Or.inl (by decide))⟩

/-- Claim C8: the closed-form price inversion round-trips — under the spec's
demand-support invariant, if the price solver returns `w` for target `T` at
a quantity with positive expected sales, then the retailer profit at
`(w, q)` is exactly `T`. -/
theorem findW_roundtrip_retailer_profit
    (params : NegotiationParams) (q T w : ℚ)
    (h0 : 0 ≤ params.demand_min)
    (hE : 0 < expectedMinQuantityDemand q params)
    (hw : findWForTargetRetailerProfit q T params = some w) :
    (calculateProfits w q params).retailer_profit = T := by
  have hq : 0 < q := expectedMin_pos_imp_q_pos h0 hE
  simp only [findWForTargetRetailerProfit] at hw
  split_ifs at hw with h1 h2 h3 h4
  · exact absurd h2.2 (not_le.2 hq)
  · obtain rfl : params.p - T / expectedMinQuantityDemand q params = w :=
      Option.some.inj hw
    simp only [calculateProfits]
    rw [sub_sub_cancel]
    exact div_mul_cancel₀ T (ne_of_gt hE)

/-- Witness for C8: at the example parameters, `q = 70` and target `245/2`,
the solver returns `95/13`, which reproduces the target exactly. -/
theorem findW_roundtrip_retailer_profit_witness :
    (0 : ℚ) ≤ (⟨3, 10, 0, 100⟩ : NegotiationParams).demand_min ∧
    (0 : ℚ) < expectedMinQuantityDemand 70 ⟨3, 10, 0, 100⟩ ∧
    findWForTargetRetailerProfit 70 (245 / 2) ⟨3, 10, 0, 100⟩ =
      some (95 / 13) ∧
    (calculateProfits (95 / 13) 70 ⟨3, 10, 0, 100⟩).retailer_profit =
      245 / 2 :=
  ⟨by decide, by decide, by decide,
    findW_roundtrip_retailer_profit ⟨3, 10, 0, 100⟩ 70 (245 / 2) (95 / 13)
      (by decide) (by decide) (by decide)⟩

/-- Claim C1 (amended): under the parameter invariant `0 < c < p`,
`0 ≤ demandMin < demandMax`, every decision the policy emits satisfies:
`Accept` carries a positive price and positive quantity, `CounterPrice`
carries a positive quantity and a price at least `c`, and `CounterQuantity`
carries a positive price and a nonnegative quantity. -/
theorem classify_decision_bounds
    (params : NegotiationParams) (nash : NashSolution) (po : PartialOffer)
    (hc : 0 < params.c) (hcp : params.c < params.p)
    (h0 : 0 ≤ params.demand_min)
    (hd : params.demand_min < params.demand_max) :
    decisionBounds params (classify params nash po) := by
  obtain ⟨ow, oq⟩ := po
  have hdmax : 0 < params.demand_max := lt_of_le_of_lt h0 hd
  cases hcw : isValidField ow with
  | true =>
    cases hcq : isValidField oq with
    | true =>
      have hw' := isValidField_pos hcw
      have hq' := isValidField_pos hcq
      simp only [classify, hcw, hcq, if_true]
      split_ifs with hfav
      · exact ⟨hw', hq'⟩
      · cases hW : findWForTargetRetailerProfit (oq.getD 0)
            nash.retailer_profit params with
        | none => trivial
        | some w2 => exact ⟨hq', findW_some_ge_c hq' hW⟩
    | false =>
      have hw' := isValidField_pos hcw
      simp only [classify, hcw, hcq, if_true, Bool.false_eq_true, if_false]
      cases hQ : findQForTargetRetailerProfit (ow.getD 0)
          nash.retailer_profit params with
      | none => trivial
      | some n => exact ⟨hw', findQ_some_nonneg hdmax hQ⟩
  | false =>
    cases hcq : isValidField oq with
    | true =>
      have hq' := isValidField_pos hcq
      simp only [classify, hcw, hcq, if_true, Bool.false_eq_true, if_false]
      cases hW : findWForTargetRetailerProfit (oq.getD 0)
          nash.retailer_profit params with
      | none => trivial
      | some w2 => exact ⟨hq', findW_some_ge_c hq' hW⟩
    | false =>
      simp only [classify, hcw, hcq, Bool.false_eq_true, if_false]
      trivial

/-- Witness for the amended C1 at the example parameters and a full offer. -/
theorem classify_decision_bounds_witness :
    (0 : ℚ) < 3 ∧ (3 : ℚ) < 10 ∧ (0 : ℚ) ≤ 0 ∧ (0 : ℚ) < 100 ∧
    decisionBounds ⟨3, 10, 0, 100⟩
      (classify ⟨3, 10, 0, 100⟩ (nashBargainingSolution ⟨3, 10, 0, 100⟩)
        ⟨some 1, some 70⟩) :=
  ⟨by decide, by decide, by decide, by decide,
    classify_decision_bounds ⟨3, 10, 0, 100⟩
      (nashBargainingSolution ⟨3, 10, 0, 100⟩) ⟨some 1, some 70⟩
      (by decide) (by decide) (by decide) (by decide)⟩

set_option maxRecDepth 100000

/-- Counterexample to claim C1 as stated: with
`params = ⟨c := 3, p := 10, demandMin := 0, demandMax := 100⟩` (satisfying
`0 < c < p` and `demandMin < demandMax`) and the code's own Nash solution,
the full offer `w = 1 < c`, `q = 70` is accepted unchanged rather than
rejected; with `params = ⟨1, 100, 0, 3/5⟩` the price-only offer `w = 1`
draws a counter-offer whose quantity is `0`, not strictly positive; and with
the first parameters the price-only offer `w = 2 < c` draws a counter-offer
that keeps the below-cost price `2`. -/
theorem classify_claim1_counterexample :
    ((1 : ℚ) < (⟨3, 10, 0, 100⟩ : NegotiationParams).c ∧
      classify ⟨3, 10, 0, 100⟩ (nashBargainingSolution ⟨3, 10, 0, 100⟩)
        ⟨some 1, some 70⟩ = Decision.Accept ⟨1, 70⟩) ∧
    (classify ⟨1, 100, 0, 3 / 5⟩ (nashBargainingSolution ⟨1, 100, 0, 3 / 5⟩)
        ⟨some 1, none⟩ = Decision.CounterQuantity 1 0) ∧
    ((2 : ℚ) < (⟨3, 10, 0, 100⟩ : NegotiationParams).c ∧
      classify ⟨3, 10, 0, 100⟩ (nashBargainingSolution ⟨3, 10, 0, 100⟩)
        ⟨some 2, none⟩ = Decision.CounterQuantity 2 17) :=
  ⟨⟨by decide, by decide⟩, by decide, ⟨by decide, by decide⟩⟩
